import Mathlib

/-!
# Verification of `samsung_health.py`

A shallow embedding of the Samsung Health oxygen-saturation export reader
(`samsung_health.py`) and proofs about its behaviour.

Modelling conventions:
* Python floats and datetimes are modelled as `ℚ`.  A `datetime` value is the
  number of seconds since the Unix epoch; all arithmetic in the source that
  touches these values (`/ 1000`, `(min + max) / 2`) is exact on the inputs
  the program handles, so `ℚ` is faithful.
* `datetime.fromtimestamp(t).replace(tzinfo=timezone.utc)` is modelled as the
  identity on epoch seconds (the platform zone is taken to be UTC, matching
  the "times are UTC" convention the source itself asserts), and
  `datetime.strptime(s, "%Y-%m-%d %H:%M:%S.%f").replace(tzinfo=timezone.utc)`
  as a parser from the fixed format straight to UTC epoch seconds.
* Fallible Python code (KeyError on a missing dict key, ValueError from
  `float`/`strptime`/tuple unpacking) is modelled with `Except String`.
* A CSV row is a record of the eight columns the program reads, each an
  `Option String` (`none` = the column is absent, so `row[key]` raises).
* A JSON binning record is a record of the five keys the program reads,
  each an `Option ℚ`.
* The file system seen by `loadJson` is a function from a path (the list of
  segments passed to `os.path.join`) to `Option` of the parsed JSON contents;
  `none` means `os.path.exists` is false.
-/

set_option allowUnsafeReducibility true in
attribute [semireducible] Rat.add Rat.mul Rat.inv Rat.sub Rat.ofScientific

/-! ## String helpers

The source leans on Python library routines (`str.split`-like behaviour inside
`strptime`, `float`).  We implement them over `List Char` so that concrete
inputs evaluate by kernel reduction. -/

/-- Split a character list at every occurrence of `sep` (the separators are
dropped, empty groups are kept, like Python `str.split(sep)`). -/
def splitOnChar (sep : Char) : List Char → List (List Char)
  | [] => [[]]
  | c :: cs =>
    if c = sep then [] :: splitOnChar sep cs
    else
      match splitOnChar sep cs with
      | [] => [[c]]
      | g :: gs => (c :: g) :: gs

/-- The value of a list of decimal digits, most significant first. -/
def natOfDigits (cs : List Char) : Nat :=
  cs.foldl (fun n c => 10 * n + (c.toNat - 48)) 0

/-- Every character is a decimal digit. -/
def allDigits (cs : List Char) : Bool :=
  cs.all Char.isDigit

/-- A nonempty all-digit group. -/
def digitGroup (cs : List Char) : Bool :=
  !cs.isEmpty && allDigits cs

/-- Python `float(s)` on the decimal fragment the exported data uses:
an optional sign, then digits with at most one decimal point (at least one
digit overall).  `none` models `ValueError`.  (Python `float` additionally
accepts exponents, `inf`/`nan` and surrounding whitespace; none of these occur
in the fixed-format export this program reads.) -/
def parseFloat? (s : String) : Option ℚ :=
  let core : List Char → Option ℚ := fun cs =>
    match splitOnChar '.' cs with
    | [ip] => if digitGroup ip then some (natOfDigits ip : ℚ) else none
    | [ip, fp] =>
      if (!ip.isEmpty || !fp.isEmpty) && allDigits ip && allDigits fp then
        some ((natOfDigits ip : ℚ) + (natOfDigits fp : ℚ) / 10 ^ fp.length)
      else none
    | _ => none
  match s.data with
  | '-' :: rest => (core rest).map (fun q => -q)
  | '+' :: rest => core rest
  | cs => core cs

/-- `flot` (source lines 26-29): `float(s) if s else None` for a CSV string
field.  The empty string is the only falsy `str`, so it yields `none`; any
other string goes through `float`, which raises (`.error`) when unparsable. -/
def flot (s : String) : Except String (Option ℚ) :=
  if s = "" then .ok none
  else
    match parseFloat? s with
    | some q => .ok (some q)
    | none => .error "ValueError: could not convert string to float"

/-- `float(x) if x else None` as applied to a JSON *number* in `parseJson`
(Python's `flot` is untyped; on a number, truthy means nonzero and `float` is
the identity on its value). -/
def flotNum (x : ℚ) : Option ℚ :=
  if x ≠ 0 then some x else none

/-! ## Time parsing -/

/-- Days from 1970-01-01 to the civil date `y-m-d` (proleptic Gregorian),
the standard era-based calendar computation used to turn the `strptime`
result into an epoch instant. -/
def daysFromCivil (y m d : Nat) : Int :=
  let yy := if m ≤ 2 then y - 1 else y
  let era := yy / 400
  let yoe := yy % 400
  let mp := (m + 9) % 12
  let doy := (153 * mp + 2) / 5 + (d - 1)
  let doe := yoe * 365 + yoe / 4 - yoe / 100 + doy
  (era * 146097 + doe : Nat) - (719468 : Int)

/-- Gregorian leap year. -/
def isLeapYear (y : Nat) : Bool :=
  (y % 4 == 0 && y % 100 != 0) || y % 400 == 0

/-- Length of month `m` in year `y`. -/
def daysInMonth (y m : Nat) : Nat :=
  if m = 2 then (if isLeapYear y then 29 else 28)
  else if m = 4 || m = 6 || m = 9 || m = 11 then 30
  else 31

/-- `parseSamsungTime` (source lines 20-21) composed with the
`.replace(tzinfo=timezone.utc)` of its call sites: parse
`"%Y-%m-%d %H:%M:%S.%f"` and read the result as a UTC instant, returned as
seconds since the Unix epoch.  A string that does not match the format (or
encodes an invalid date) models `strptime` raising `ValueError`. -/
def parseSamsungTime (s : String) : Except String ℚ :=
  match splitOnChar ' ' s.data with
  | [dpart, tpart] =>
    match splitOnChar '-' dpart, splitOnChar ':' tpart with
    | [ys, ms, ds], [hs, mins, ss] =>
      match splitOnChar '.' ss with
      | [sec, frac] =>
        let y := natOfDigits ys
        let mo := natOfDigits ms
        let d := natOfDigits ds
        if digitGroup ys && digitGroup ms && digitGroup ds &&
            digitGroup hs && digitGroup mins && digitGroup sec &&
            digitGroup frac &&
            (1 ≤ y && y ≤ 9999) && (1 ≤ mo && mo ≤ 12) &&
            (1 ≤ d && d ≤ daysInMonth y mo) &&
            natOfDigits hs ≤ 23 && natOfDigits mins ≤ 59 &&
            natOfDigits sec ≤ 61 && frac.length ≤ 6 then
          .ok ((86400 : ℚ) * (daysFromCivil y mo d : ℤ) +
            3600 * natOfDigits hs + 60 * natOfDigits mins + natOfDigits sec +
            (natOfDigits frac : ℚ) / 10 ^ frac.length)
        else .error "ValueError: time data does not match format"
      | _ => .error "ValueError: time data does not match format"
    | _, _ => .error "ValueError: time data does not match format"
  | _ => .error "ValueError: time data does not match format"

/-! ## Data model -/

/-- `OxygenSaturation` (source lines 55-70).  The Python attribute `end` is a
Lean keyword, so the field is called `end_`. -/
structure OxygenSaturation where
  start : ℚ
  end_ : ℚ
  min : Option ℚ
  max : Option ℚ
  avg : Option ℚ
  heart : Option ℚ
  low_duration : Option ℚ
  deriving DecidableEq, Repr

/-- Python truthiness of an optional float: `None`, `0.0` are falsy. -/
def truthyOpt : Option ℚ → Bool
  | none => false
  | some x => x != 0

/-- `OxygenSaturation.sufficient` (source lines 68-70):
`(self.min and self.max) or self.avg` used as a condition. -/
def OxygenSaturation.sufficient (o : OxygenSaturation) : Bool :=
  (truthyOpt o.min && truthyOpt o.max) || truthyOpt o.avg

/-- A Python object of a class that defines neither `__bool__` nor `__len__`
is always truthy; this is the `oxy2` test in `if oxy2 and oxy2.sufficient()`
(source line 154). -/
def objTruthy (_ : OxygenSaturation) : Bool :=
  true

/-- One CSV row as `csv.DictReader` hands it to `loadRow`: the eight columns
the program reads, `none` when the column is absent from the table (so that
`rowdict[key]` raises `KeyError`).  Field names follow the tails of the
`HealthConstants.OxygenSaturation` key strings. -/
structure SourceRow where
  start_time : Option String
  end_time : Option String
  min : Option String
  max : Option String
  spo2 : Option String
  heart_rate : Option String
  low_duration : Option String
  binning : Option String
  deriving DecidableEq, Repr

/-- One record of a JSON binning file: the five keys `parseJson` reads,
`none` when the key is absent (so that `record[key]` raises `KeyError`). -/
structure SideRecord where
  start_time : Option ℚ
  end_time : Option ℚ
  spo2 : Option ℚ
  spo2_min : Option ℚ
  spo2_max : Option ℚ
  deriving DecidableEq, Repr

/-- Dictionary lookup `d[key]`: `KeyError` when the key is absent. -/
def req {α : Type} : Option α → Except String α
  | none => .error "KeyError"
  | some a => .ok a

instance {ε α : Type} [DecidableEq ε] [DecidableEq α] : DecidableEq (Except ε α) := fun x y =>
  match x, y with
  | .ok a, .ok b => if h : a = b then .isTrue (by rw [h]) else .isFalse (by simp [h])
  | .error e, .error f => if h : e = f then .isTrue (by rw [h]) else .isFalse (by simp [h])
  | .ok _, .error _ => .isFalse (by simp)
  | .error _, .ok _ => .isFalse (by simp)

/-! ## The parser -/

/-- `OxygenSaturationParser.parseRow` (source lines 119-138): convert one CSV
row into a base `OxygenSaturation`.  Times are parsed with `parseSamsungTime`
and stamped as UTC; the five numeric columns go through `flot`. -/
def parseRow (row : SourceRow) : Except String OxygenSaturation := do
  let startStr ← req row.start_time
  let start ← parseSamsungTime startStr
  let endStr ← req row.end_time
  let end_ ← parseSamsungTime endStr
  let mn ← flot (← req row.min)
  let mx ← flot (← req row.max)
  let sp ← flot (← req row.spo2)
  let hr ← flot (← req row.heart_rate)
  let ld ← flot (← req row.low_duration)
  pure ⟨start, end_, mn, mx, sp, hr, ld⟩

/-- `OxygenSaturationParser.parseJson` (source lines 160-190): clone `base`
and replace data with values from one JSON record.  The clone-then-mutate of
the source becomes successive functional updates of the copy; the guarded
accesses follow Python evaluation order, including the short-circuit of
`record['spo2_min'] and record['spo2_max']` (the `spo2_max` key is only read
when `spo2_min` is truthy). -/
def parseJson (base : OxygenSaturation) (record : SideRecord) :
    Except String OxygenSaturation := do
  let startMs ← req record.start_time
  let start := startMs / 1000
  let endMs ← req record.end_time
  let end_ := endMs / 1000
  let oxy2 := { base with start := start, end_ := end_ }
  let sp ← req record.spo2
  let oxy2 := if sp != 0 then { oxy2 with avg := flotNum sp } else oxy2
  let smin ← req record.spo2_min
  if smin != 0 then
    let smax ← req record.spo2_max
    if smax != 0 then
      let oxy2 := { oxy2 with min := flotNum smin, max := flotNum smax }
      -- "if not oxy2.avg": compute the midpoint of the just-assigned min/max
      let oxy2 :=
        if !truthyOpt oxy2.avg then { oxy2 with avg := some ((smin + smax) / 2) }
        else oxy2
      pure oxy2
    else pure { oxy2 with min := none, max := none }
  else pure { oxy2 with min := none, max := none }

/-- The default object used to totalise reads of the object store; it is never
consulted at a valid address. -/
def blankOxy : OxygenSaturation :=
  ⟨0, 0, none, none, none, none, none⟩

/-- Read the object at address `r` of an explicit object store. -/
def heapRead (h : List OxygenSaturation) (r : Nat) : OxygenSaturation :=
  h.getD r blankOxy

/-- Mutate one attribute of the object at address `r` (Python `obj.f = v`). -/
def heapWrite (h : List OxygenSaturation) (r : Nat)
    (f : OxygenSaturation → OxygenSaturation) : List OxygenSaturation :=
  h.set r (f (heapRead h r))

/-- `parseJson` again, as a transformer of an explicit object store, so that
the aliasing behaviour of `oxy2 = copy.copy(base)` followed by attribute
assignments on `oxy2` is visible: the copy lives at a fresh address and every
write targets that address.  Returns the new store and the copy's address. -/
def parseJsonHeap (heap : List OxygenSaturation) (base : Nat)
    (record : SideRecord) : Except String (List OxygenSaturation × Nat) := do
  let startMs ← req record.start_time
  let endMs ← req record.end_time
  -- oxy2 = copy.copy(base)
  let oxy2 := heap.length
  let heap := heap ++ [heapRead heap base]
  let heap := heapWrite heap oxy2 (fun o => { o with start := startMs / 1000 })
  let heap := heapWrite heap oxy2 (fun o => { o with end_ := endMs / 1000 })
  let sp ← req record.spo2
  let heap :=
    if sp != 0 then heapWrite heap oxy2 (fun o => { o with avg := flotNum sp })
    else heap
  let smin ← req record.spo2_min
  if smin != 0 then
    let smax ← req record.spo2_max
    if smax != 0 then
      let heap := heapWrite heap oxy2 (fun o => { o with min := flotNum smin })
      let heap := heapWrite heap oxy2 (fun o => { o with max := flotNum smax })
      let heap :=
        if !truthyOpt (heapRead heap oxy2).avg then
          heapWrite heap oxy2 (fun o =>
            { o with
              avg := some (((heapRead heap oxy2).min.getD 0 +
                (heapRead heap oxy2).max.getD 0) / 2) })
        else heap
      pure (heap, oxy2)
    else
      pure (heapWrite (heapWrite heap oxy2 (fun o => { o with min := none }))
        oxy2 (fun o => { o with max := none }), oxy2)
  else
    pure (heapWrite (heapWrite heap oxy2 (fun o => { o with min := none }))
      oxy2 (fun o => { o with max := none }), oxy2)

/-- The file system seen by `loadJson`: a path (the segment list handed to
`os.path.join`) maps to the parsed contents of the JSON file there, or to
`none` when `os.path.exists` is false. -/
abbrev SideFS := List String → Option (List SideRecord)

/-- The record loop of `loadJson` (source lines 152-155): parse each record,
keep the results that are truthy and sufficient, in file order. -/
def loadJsonAux (base : OxygenSaturation) :
    List SideRecord → Except String (List OxygenSaturation)
  | [] => .ok []
  | bin :: bins => do
    let oxy2 ← parseJson base bin
    let rest ← loadJsonAux base bins
    if objTruthy oxy2 && oxy2.sufficient then pure (oxy2 :: rest)
    else pure rest

/-- `OxygenSaturationParser.loadJson` (source lines 141-157): an absent file
yields `[]`; otherwise parse and filter the records of the file. -/
def loadJson (fs : SideFS) (base : OxygenSaturation) (path : List String) :
    Except String (List OxygenSaturation) :=
  match fs path with
  | none => .ok []
  | some bins => loadJsonAux base bins

/-- `OxygenSaturationParser.loadRow` (source lines 97-116).  `dirname` is
`os.path.dirname(self.filename)` and `title` is `self.title`; the side-file
path mirrors `os.path.join(dirname, "jsons", title, jsonName[0], jsonName)`
(Python `jsonName[0]` is the one-character string `String.mk (… .take 1)`;
it is only evaluated when `jsonName` is truthy, i.e. nonempty). -/
def loadRow (fs : SideFS) (dirname title : String) (row : SourceRow) :
    Except String (List OxygenSaturation) := do
  let base ← parseRow row
  let jsonName ← req row.binning
  let oxygens ←
    if jsonName ≠ "" then
      loadJson fs base
        [dirname, "jsons", title, String.mk (jsonName.data.take 1), jsonName]
    else pure []
  if oxygens ≠ [] then pure oxygens else pure [base]

/-- The row loop of `load` (source lines 89-90): `oxygens += self.loadRow(row)`
over the `DictReader` rows, aborting at the first raising row. -/
def loadRows (fs : SideFS) (dirname title : String) :
    List SourceRow → Except String (List OxygenSaturation)
  | [] => .ok []
  | row :: rows => do
    let os ← loadRow fs dirname title row
    let rest ← loadRows fs dirname title rows
    pure (os ++ rest)

/-- `oxygens.sort(key=lambda oxy: oxy.start)` (source line 92): Python list
sort is a stable sort by the key, modelled with the stable `List.mergeSort`. -/
def sortByStart (l : List OxygenSaturation) : List OxygenSaturation :=
  l.mergeSort (fun a b => decide (a.start ≤ b.start))

/-- The two parsed inputs of `load`: the comma-split fields of the first line,
and the `DictReader` rows of the rest of the file. -/
structure LoadInput where
  firstLine : List String
  rows : List SourceRow

/-- `OxygenSaturationParser.load` (source lines 75-94).
`(self.title, unk2, unk3) = next(linereader)[0:3]` takes the first three
fields of the first line and raises `ValueError` when there are fewer;
then every row is expanded with `loadRow` and the accumulator is sorted by
`start`. -/
def load (fs : SideFS) (dirname : String) (input : LoadInput) :
    Except String (List OxygenSaturation) :=
  match input.firstLine with
  | title :: _ :: _ :: _ => do
    let oxygens ← loadRows fs dirname title input.rows
    pure (sortByStart oxygens)
  | _ => .error "ValueError: not enough values to unpack"

/-! ## Basic lemmas about the embedding's monadic plumbing -/

@[simp] theorem ok_bind {ε α β : Type} (a : α) (f : α → Except ε β) :
    (Except.ok a >>= f) = f a := rfl

@[simp] theorem error_bind {ε α β : Type} (e : ε) (f : α → Except ε β) :
    (Except.error e >>= f : Except ε β) = .error e := rfl

@[simp] theorem pure_eq_ok {ε α : Type} (a : α) : (pure a : Except ε α) = .ok a := rfl

@[simp] theorem req_some {α : Type} (a : α) : req (some a) = .ok a := rfl

@[simp] theorem req_none {α : Type} : req (none : Option α) = .error "KeyError" := rfl

/-- The result of `parseJson` once the four unconditionally-read keys are
known, as a plain case split (proved equal to `parseJson` below; used to
organise the proofs). -/
def parseJsonRes (base : OxygenSaturation) (st en sp smin : ℚ)
    (rmax : Option ℚ) : Except String OxygenSaturation :=
  let oxy2 := { base with start := st / 1000, end_ := en / 1000 }
  let oxy2 := if sp != 0 then { oxy2 with avg := flotNum sp } else oxy2
  if smin != 0 then
    match rmax with
    | none => .error "KeyError"
    | some smax =>
      if smax != 0 then
        let o := { oxy2 with min := flotNum smin, max := flotNum smax }
        .ok (if !truthyOpt o.avg then { o with avg := some ((smin + smax) / 2) }
          else o)
      else .ok { oxy2 with min := none, max := none }
  else .ok { oxy2 with min := none, max := none }

theorem parseJson_eq (base : OxygenSaturation) (record : SideRecord)
    (st en sp smin : ℚ)
    (h1 : record.start_time = some st) (h2 : record.end_time = some en)
    (h3 : record.spo2 = some sp) (h4 : record.spo2_min = some smin) :
    parseJson base record = parseJsonRes base st en sp smin record.spo2_max := by
  cases hmax : record.spo2_max <;>
    simp [parseJson, parseJsonRes, h1, h2, h3, h4, hmax]

/-- Whatever `parseJson` returns inherits the `heart` attribute of `base`
unchanged: no branch assigns it. -/
theorem parseJson_heart (base : OxygenSaturation) (record : SideRecord)
    (m : OxygenSaturation) (hm : parseJson base record = .ok m) :
    m.heart = base.heart := by
  cases h1 : record.start_time with
  | none => simp [parseJson, h1] at hm
  | some st =>
  cases h2 : record.end_time with
  | none => simp [parseJson, h1, h2] at hm
  | some en =>
  cases h3 : record.spo2 with
  | none => simp [parseJson, h1, h2, h3] at hm
  | some sp =>
  cases h4 : record.spo2_min with
  | none => simp [parseJson, h1, h2, h3, h4] at hm
  | some smin =>
  rw [parseJson_eq base record st en sp smin h1 h2 h3 h4] at hm
  unfold parseJsonRes at hm
  cases hmax : record.spo2_max <;> rw [hmax] at hm <;> dsimp only at hm <;>
    split_ifs at hm <;> (injection hm with h; subst h; rfl)

/-- When the five keys of a side-record are present, `parseJson` cannot raise:
it returns some measurement. -/
theorem parseJson_total (base : OxygenSaturation) (record : SideRecord)
    (k1 : record.start_time.isSome = true) (k2 : record.end_time.isSome = true)
    (k3 : record.spo2.isSome = true) (k4 : record.spo2_min.isSome = true)
    (k5 : record.spo2_max.isSome = true) :
    ∃ m, parseJson base record = .ok m := by
  obtain ⟨st, h1⟩ := Option.isSome_iff_exists.mp k1
  obtain ⟨en, h2⟩ := Option.isSome_iff_exists.mp k2
  obtain ⟨sp, h3⟩ := Option.isSome_iff_exists.mp k3
  obtain ⟨smin, h4⟩ := Option.isSome_iff_exists.mp k4
  obtain ⟨smax, h5⟩ := Option.isSome_iff_exists.mp k5
  rw [parseJson_eq base record st en sp smin h1 h2 h3 h4]
  unfold parseJsonRes
  rw [h5]
  dsimp only
  split_ifs <;> exact ⟨_, rfl⟩

/-- C5: every measurement `parseSideRecord` (= `parseJson`) returns has
`start = start_time / 1000` and `end = end_time / 1000`, the record's
epoch-millisecond stamps turned into epoch seconds (exactly, fractional
seconds retained — the division is exact in `ℚ`). -/
theorem parseJson_sets_start_end_from_epoch_ms (base : OxygenSaturation)
    (record : SideRecord) (st en : ℚ) (m : OxygenSaturation)
    (h1 : record.start_time = some st) (h2 : record.end_time = some en)
    (hm : parseJson base record = .ok m) :
    m.start = st / 1000 ∧ m.end_ = en / 1000 := by
  cases h3 : record.spo2 with
  | none => simp [parseJson, h1, h2, h3] at hm
  | some sp =>
  cases h4 : record.spo2_min with
  | none => simp [parseJson, h1, h2, h3, h4] at hm
  | some smin =>
  rw [parseJson_eq base record st en sp smin h1 h2 h3 h4] at hm
  unfold parseJsonRes at hm
  cases hmax : record.spo2_max <;> rw [hmax] at hm <;> dsimp only at hm <;>
    split_ifs at hm <;> (injection hm with h; subst h; exact ⟨rfl, rfl⟩)

/-- Closed instance for `parseJson_sets_start_end_from_epoch_ms`. -/
theorem parseJson_sets_start_end_from_epoch_ms_witness :
    parseJson blankOxy ⟨some 1662821111851, some 1662821170851, some 0, some 0, some 0⟩
      = .ok ⟨1662821111851 / 1000, 1662821170851 / 1000, none, none, none, none, none⟩ ∧
    (1662821111851 / 1000 : ℚ) = (1662821111851 : ℚ) / 1000 ∧
    ((⟨1662821111851 / 1000, 1662821170851 / 1000, none, none, none, none, none⟩ :
        OxygenSaturation).start = (1662821111851 : ℚ) / 1000 ∧
      (⟨1662821111851 / 1000, 1662821170851 / 1000, none, none, none, none, none⟩ :
        OxygenSaturation).end_ = (1662821170851 : ℚ) / 1000) :=
  ⟨by decide, rfl,
    parseJson_sets_start_end_from_epoch_ms blankOxy
      ⟨some 1662821111851, some 1662821170851, some 0, some 0, some 0⟩
      1662821111851 1662821170851 _ rfl rfl (by decide)⟩

/-- C6: a side-record with `spo2_min = 90`, `spo2_max = 95`, `spo2 = 0`
yields min 90, max 95 and the midpoint average 92.5 (the record's average
field being falsy, the copy's inherited average still absent/falsy). -/
theorem parseJson_midpoint_min90_max95 (base : OxygenSaturation)
    (record : SideRecord) (st en : ℚ)
    (h1 : record.start_time = some st) (h2 : record.end_time = some en)
    (h3 : record.spo2 = some 0) (h4 : record.spo2_min = some 90)
    (h5 : record.spo2_max = some 95) (h6 : truthyOpt base.avg = false) :
    parseJson base record = .ok { base with
      start := st / 1000
      end_ := en / 1000
      min := some 90
      max := some 95
      avg := some (92.5 : ℚ) } := by
  simp [parseJson, h1, h2, h3, h4, h5, flotNum, h6]
  norm_num

/-- Closed instance for `parseJson_midpoint_min90_max95`. -/
theorem parseJson_midpoint_min90_max95_witness :
    truthyOpt blankOxy.avg = false ∧
    parseJson blankOxy ⟨some 1000, some 2000, some 0, some 90, some 95⟩
      = .ok ⟨1000 / 1000, 2000 / 1000, some 90, some 95, some (92.5 : ℚ), none, none⟩ :=
  ⟨by decide,
    parseJson_midpoint_min90_max95 blankOxy
      ⟨some 1000, some 2000, some 0, some 90, some 95⟩ 1000 2000
      rfl rfl rfl rfl rfl (by decide)⟩

/-- C7: with a base average of 98 and auxiliary (heart) rate of 60 and a
side-record whose three spo2 fields are all zero, the derived measurement has
min and max cleared, average 98 and heart rate 60, both inherited from the
base; and in general no `parseJson` result ever changes the heart rate. -/
theorem parseJson_inherits_avg_heart_when_spo2_all_zero
    (base : OxygenSaturation) (record : SideRecord) (st en : ℚ)
    (h1 : record.start_time = some st) (h2 : record.end_time = some en)
    (h3 : record.spo2 = some 0) (h4 : record.spo2_min = some 0)
    (h5 : record.spo2_max = some 0)
    (havg : base.avg = some 98) (hheart : base.heart = some 60) :
    (∃ m, parseJson base record = .ok m ∧
      m.min = none ∧ m.max = none ∧ m.avg = some 98 ∧ m.heart = some 60) ∧
    (∀ (b : OxygenSaturation) (r : SideRecord) (m : OxygenSaturation),
      parseJson b r = .ok m → m.heart = b.heart) := by
  refine ⟨⟨{ base with
    start := st / 1000
    end_ := en / 1000
    min := none
    max := none }, ?_, rfl, rfl, by simpa using havg, by simpa using hheart⟩,
    parseJson_heart⟩
  simp [parseJson, h1, h2, h3, h4, h5]

/-- Closed instance for `parseJson_inherits_avg_heart_when_spo2_all_zero`. -/
theorem parseJson_inherits_avg_heart_when_spo2_all_zero_witness :
    (⟨5, 6, some 1, some 2, some 98, some 60, some 7⟩ :
        OxygenSaturation).avg = some 98 ∧
    (∃ m, parseJson ⟨5, 6, some 1, some 2, some 98, some 60, some 7⟩
        ⟨some 1000, some 2000, some 0, some 0, some 0⟩ = .ok m ∧
      m.min = none ∧ m.max = none ∧ m.avg = some 98 ∧ m.heart = some 60) :=
  ⟨rfl,
    (parseJson_inherits_avg_heart_when_spo2_all_zero
      ⟨5, 6, some 1, some 2, some 98, some 60, some 7⟩
      ⟨some 1000, some 2000, some 0, some 0, some 0⟩ 1000 2000
      rfl rfl rfl rfl rfl rfl rfl).1⟩

/-- C10: on a side-record carrying all five keys, `parseJson` always returns
a measurement (it cannot return a null result), that measurement is truthy as
a Python object, and the record loop of `loadJson` keeps or drops it solely
according to `sufficient`. -/
theorem parseJson_never_none_filter_is_sufficiency (base : OxygenSaturation)
    (record : SideRecord)
    (k1 : record.start_time.isSome = true) (k2 : record.end_time.isSome = true)
    (k3 : record.spo2.isSome = true) (k4 : record.spo2_min.isSome = true)
    (k5 : record.spo2_max.isSome = true) :
    ∃ m, parseJson base record = .ok m ∧ objTruthy m = true ∧
      loadJsonAux base [record] = .ok (if m.sufficient then [m] else []) := by
  obtain ⟨m, hm⟩ := parseJson_total base record k1 k2 k3 k4 k5
  refine ⟨m, hm, rfl, ?_⟩
  simp only [loadJsonAux, hm, ok_bind, pure_eq_ok, objTruthy, Bool.true_and]
  split <;> rfl

/-- Closed instance for `parseJson_never_none_filter_is_sufficiency`. -/
theorem parseJson_never_none_filter_is_sufficiency_witness :
    (some (0 : ℚ)).isSome = true ∧
    ∃ m, parseJson blankOxy ⟨some 0, some 0, some 0, some 0, some 0⟩ = .ok m ∧
      objTruthy m = true ∧
      loadJsonAux blankOxy [⟨some 0, some 0, some 0, some 0, some 0⟩]
        = .ok (if m.sufficient then [m] else []) :=
  ⟨rfl,
    parseJson_never_none_filter_is_sufficiency blankOxy
      ⟨some 0, some 0, some 0, some 0, some 0⟩ rfl rfl rfl rfl rfl⟩

theorem heapWrite_getElem?_ne (h : List OxygenSaturation) (r j : Nat)
    (f : OxygenSaturation → OxygenSaturation) (hne : r ≠ j) :
    (heapWrite h r f)[j]? = h[j]? := by
  simp [heapWrite, List.getElem?_set_ne hne]

/-- C9: `parseSideRecord` (= `parseJson`) leaves the base object untouched:
in the object-store model every attribute assignment targets the fresh copy,
so the object at the base's address is unchanged (and the returned address is
the fresh one). -/
theorem parseJsonHeap_preserves_base (heap : List OxygenSaturation) (b : Nat)
    (record : SideRecord) (heap2 : List OxygenSaturation) (r2 : Nat)
    (hb : b < heap.length)
    (h : parseJsonHeap heap b record = .ok (heap2, r2)) :
    heap2[b]? = heap[b]? ∧ r2 = heap.length := by
  have hne : heap.length ≠ b := ne_of_gt hb
  cases h1 : record.start_time with
  | none => simp [parseJsonHeap, h1] at h
  | some st =>
  cases h2 : record.end_time with
  | none => simp [parseJsonHeap, h1, h2] at h
  | some en =>
  cases h3 : record.spo2 with
  | none => simp [parseJsonHeap, h1, h2, h3] at h
  | some sp =>
  cases h4 : record.spo2_min with
  | none => simp [parseJsonHeap, h1, h2, h3, h4] at h
  | some smin =>
  cases h5 : record.spo2_max with
  | none =>
    simp only [parseJsonHeap, h1, h2, h3, h4, h5, req_some, req_none, ok_bind,
      error_bind, pure_eq_ok] at h
    split_ifs at h <;>
      (injection h with hh; injection hh with hA hB; subst hA; subst hB;
        exact ⟨by simp [heapWrite_getElem?_ne _ _ _ _ hne,
          List.getElem?_append_left hb], rfl⟩)
  | some smax =>
    simp only [parseJsonHeap, h1, h2, h3, h4, h5, req_some, req_none, ok_bind,
      error_bind, pure_eq_ok] at h
    split_ifs at h <;>
      (injection h with hh; injection hh with hA hB; subst hA; subst hB;
        exact ⟨by simp [heapWrite_getElem?_ne _ _ _ _ hne,
          List.getElem?_append_left hb], rfl⟩)

/-- Closed instance for `parseJsonHeap_preserves_base`. -/
theorem parseJsonHeap_preserves_base_witness :
    (0 : Nat) < [(⟨5, 6, some 1, some 2, some 98, some 60, some 7⟩ :
        OxygenSaturation)].length ∧
    [(⟨5, 6, some 1, some 2, some 98, some 60, some 7⟩ : OxygenSaturation),
        ⟨1, 2, none, none, some 98, some 60, some 7⟩][0]?
      = [(⟨5, 6, some 1, some 2, some 98, some 60, some 7⟩ :
        OxygenSaturation)][0]? ∧
    (1 : Nat) = [(⟨5, 6, some 1, some 2, some 98, some 60, some 7⟩ :
        OxygenSaturation)].length :=
  ⟨by decide,
    parseJsonHeap_preserves_base
      [⟨5, 6, some 1, some 2, some 98, some 60, some 7⟩] 0
      ⟨some 1000, some 2000, some 0, some 0, some 0⟩
      [⟨5, 6, some 1, some 2, some 98, some 60, some 7⟩,
        ⟨1, 2, none, none, some 98, some 60, some 7⟩] 1
      (by decide) (by decide)⟩
theorem le_trans_start : ∀ a b c : OxygenSaturation,
    decide (a.start ≤ b.start) = true → decide (b.start ≤ c.start) = true →
    decide (a.start ≤ c.start) = true := by
  intro a b c hab hbc
  simp only [decide_eq_true_eq] at *
  exact le_trans hab hbc

theorem le_total_start : ∀ a b : OxygenSaturation,
    (decide (a.start ≤ b.start) || decide (b.start ≤ a.start)) = true := by
  intro a b
  simp [le_total]

theorem sortByStart_sorted (l : List OxygenSaturation) :
    List.Pairwise (fun a b => a.start ≤ b.start) (sortByStart l) := by
  have := List.sorted_mergeSort le_trans_start le_total_start l
  exact this.imp (fun h => of_decide_eq_true h)

theorem sortByStart_stable (l : List OxygenSaturation) (q : ℚ) :
    (sortByStart l).filter (fun o => decide (o.start = q)) =
      l.filter (fun o => decide (o.start = q)) := by
  have hpw : (l.filter (fun o => decide (o.start = q))).Pairwise
      (fun a b => decide (a.start ≤ b.start) = true) := by
    apply List.pairwise_of_forall_mem_list
    intro a ha b hb
    have ha2 := of_decide_eq_true (List.mem_filter.mp ha).2
    have hb2 := of_decide_eq_true (List.mem_filter.mp hb).2
    simp [ha2, hb2]
  have hsub : List.Sublist (l.filter (fun o => decide (o.start = q))) (sortByStart l) :=
    List.sublist_mergeSort le_trans_start le_total_start hpw (List.filter_sublist l)
  have hsub2 : List.Sublist (l.filter (fun o => decide (o.start = q)))
      ((sortByStart l).filter (fun o => decide (o.start = q))) := by
    have h2 := hsub.filter (fun o => decide (o.start = q))
    simp only [List.filter_filter, Bool.and_self] at h2
    exact h2
  have hlen : ((sortByStart l).filter (fun o => decide (o.start = q))).length =
      (l.filter (fun o => decide (o.start = q))).length :=
    ((List.mergeSort_perm l _).filter _).length_eq
  exact (hsub2.eq_of_length hlen.symm).symm

/-- C3: a successful `load` returns the accumulator sorted non-decreasingly by
`start`, and the sort is stable: for every start time `q`, the measurements
with that start appear in the output in exactly the order the row loop
produced them. -/
theorem load_sorted_and_stable (fs : SideFS) (dirname : String)
    (input : LoadInput) (t u v : String) (rest : List String)
    (os : List OxygenSaturation)
    (h1 : input.firstLine = t :: u :: v :: rest)
    (h2 : loadRows fs dirname t input.rows = .ok os) :
    load fs dirname input = .ok (sortByStart os) ∧
    List.Pairwise (fun a b => a.start ≤ b.start) (sortByStart os) ∧
    ∀ q : ℚ, (sortByStart os).filter (fun o => decide (o.start = q)) =
      os.filter (fun o => decide (o.start = q)) := by
  obtain ⟨fl, rows⟩ := input
  simp only at h1 h2
  subst h1
  refine ⟨?_, sortByStart_sorted os, fun q => sortByStart_stable os q⟩
  simp [load, h2]

/-- Closed instance for `load_sorted_and_stable`. -/
theorem load_sorted_and_stable_witness :
    loadRows (fun _ => none) "d" "t"
      [⟨some "1970-01-02 03:00:00.000000", some "1970-01-02 03:00:00.000000",
        some "", some "", some "98", some "60", some "", some ""⟩]
      = .ok [⟨97200, 97200, none, none, some 98, some 60, none⟩] ∧
    load (fun _ => none) "d"
      ⟨["t", "u", "v"],
        [⟨some "1970-01-02 03:00:00.000000", some "1970-01-02 03:00:00.000000",
          some "", some "", some "98", some "60", some "", some ""⟩]⟩
      = .ok (sortByStart [⟨97200, 97200, none, none, some 98, some 60, none⟩]) ∧
    (sortByStart [⟨97200, 97200, none, none, some 98, some 60, none⟩]).filter
        (fun o => decide (o.start = (97200 : ℚ)))
      = ([⟨97200, 97200, none, none, some 98, some 60, none⟩] :
          List OxygenSaturation).filter (fun o => decide (o.start = (97200 : ℚ))) :=
  ⟨by decide,
    (load_sorted_and_stable (fun _ => none) "d"
      ⟨["t", "u", "v"],
        [⟨some "1970-01-02 03:00:00.000000", some "1970-01-02 03:00:00.000000",
          some "", some "", some "98", some "60", some "", some ""⟩]⟩
      "t" "u" "v" [] [⟨97200, 97200, none, none, some 98, some 60, none⟩]
      rfl (by decide)).1,
    (load_sorted_and_stable (fun _ => none) "d"
      ⟨["t", "u", "v"],
        [⟨some "1970-01-02 03:00:00.000000", some "1970-01-02 03:00:00.000000",
          some "", some "", some "98", some "60", some "", some ""⟩]⟩
      "t" "u" "v" [] [⟨97200, 97200, none, none, some 98, some 60, none⟩]
      rfl (by decide)).2.2 97200⟩
/-- C1: for a row with a nonempty side-file reference, `loadRow` returns
exactly the side-file measurements when there are any (the base is
discarded), and exactly `[base]` when the side-file is absent or yields
nothing. -/
theorem loadRow_side_file_authoritative (fs : SideFS) (dirname title : String)
    (row : SourceRow) (base : OxygenSaturation) (jsonName : String)
    (os : List OxygenSaturation)
    (hbase : parseRow row = .ok base)
    (hbin : row.binning = some jsonName) (hne : jsonName ≠ "")
    (hjson : loadJson fs base
      [dirname, "jsons", title, String.mk (jsonName.data.take 1), jsonName]
      = .ok os) :
    loadRow fs dirname title row = .ok (if os = [] then [base] else os) := by
  by_cases hos : os = [] <;>
    simp [loadRow, hbase, hbin, hne, hjson, hos]

/-- A row whose binning reference is `"b1"` and whose other fields give the
simplest parseable base record; input for closed instances. -/
def rowB1 : SourceRow :=
  ⟨some "1970-01-02 03:00:00.000000", some "1970-01-02 03:00:00.000000",
    some "", some "", some "", some "", some "", some "b1"⟩

/-- The base measurement `parseRow` extracts from `rowB1`. -/
def baseB1 : OxygenSaturation :=
  ⟨97200, 97200, none, none, none, none, none⟩

/-- A file system holding one side-file for `rowB1` with one sufficient
record. -/
def fsB1 : SideFS := fun p =>
  if p = ["d", "jsons", "t", "b", "b1"] then
    some [⟨some 1000, some 2000, some 98, some 0, some 0⟩]
  else none

/-- Closed instance for `loadRow_side_file_authoritative`: with a present
side-file holding one sufficient record the row yields just that record; with
an absent side-file it yields `[base]`. -/
theorem loadRow_side_file_authoritative_witness :
    parseRow rowB1 = .ok baseB1 ∧
    loadJson fsB1 baseB1 ["d", "jsons", "t", String.mk ("b1".data.take 1), "b1"]
      = .ok [⟨1, 2, none, none, some 98, none, none⟩] ∧
    loadRow fsB1 "d" "t" rowB1
      = .ok (if ([(⟨1, 2, none, none, some 98, none, none⟩ :
          OxygenSaturation)] : List OxygenSaturation) = [] then [baseB1]
        else [⟨1, 2, none, none, some 98, none, none⟩]) ∧
    loadJson (fun _ => none) baseB1
      ["d", "jsons", "t", String.mk ("b1".data.take 1), "b1"] = .ok [] ∧
    loadRow (fun _ => none) "d" "t" rowB1
      = .ok (if ([] : List OxygenSaturation) = [] then [baseB1] else []) :=
  ⟨by decide, by decide,
    loadRow_side_file_authoritative fsB1 "d" "t" rowB1 baseB1 "b1"
      [⟨1, 2, none, none, some 98, none, none⟩]
      (by decide) rfl (by decide) (by decide),
    by decide,
    loadRow_side_file_authoritative (fun _ => none) "d" "t" rowB1 baseB1 "b1"
      [] (by decide) rfl (by decide) (by decide)⟩
/-- On a side-record whose unconditionally-read keys are present but whose
spo2 fields are all falsy, `parseJson` clears min and max and keeps the base
average, so the result is insufficient whenever the base average is falsy. -/
theorem parseJson_insufficient_record (base : OxygenSaturation)
    (r : SideRecord) (hbavg : truthyOpt base.avg = false)
    (k1 : r.start_time.isSome = true) (k2 : r.end_time.isSome = true)
    (k3 : r.spo2.isSome = true) (k4 : r.spo2_min.isSome = true)
    (t3 : truthyOpt r.spo2 = false) (t4 : truthyOpt r.spo2_min = false) :
    ∃ m, parseJson base r = .ok m ∧ m.sufficient = false := by
  obtain ⟨st, h1⟩ := Option.isSome_iff_exists.mp k1
  obtain ⟨en, h2⟩ := Option.isSome_iff_exists.mp k2
  obtain ⟨sp, h3⟩ := Option.isSome_iff_exists.mp k3
  obtain ⟨smin, h4⟩ := Option.isSome_iff_exists.mp k4
  rw [h3] at t3
  rw [h4] at t4
  simp only [truthyOpt, bne_eq_false_iff_eq] at t3 t4
  subst t3
  subst t4
  refine ⟨⟨st / 1000, en / 1000, none, none, base.avg, base.heart,
    base.low_duration⟩, ?_, ?_⟩
  · simp [parseJson, h1, h2, h3, h4]
  · simp [OxygenSaturation.sufficient, truthyOpt]
    simpa [truthyOpt] using hbavg

/-- All records of a binning file insufficient (in the sense above) means the
record loop keeps nothing. -/
theorem loadJsonAux_all_insufficient (base : OxygenSaturation)
    (bins : List SideRecord) (hbavg : truthyOpt base.avg = false)
    (hrec : ∀ r ∈ bins, r.start_time.isSome = true ∧ r.end_time.isSome = true ∧
      r.spo2.isSome = true ∧ r.spo2_min.isSome = true ∧
      truthyOpt r.spo2 = false ∧ truthyOpt r.spo2_min = false) :
    loadJsonAux base bins = .ok [] := by
  induction bins with
  | nil => rfl
  | cons r rs ih =>
    obtain ⟨c1, c2, c3, c4, c5, c6⟩ := hrec r (by simp)
    obtain ⟨m, hm, hsuff⟩ :=
      parseJson_insufficient_record base r hbavg c1 c2 c3 c4 c5 c6
    have ih2 := ih (fun x hx => hrec x (by simp [hx]))
    simp [loadJsonAux, hm, hsuff, objTruthy, ih2]

/-- C2 (amended): a row referencing an existing side-file none of whose
records has a truthy `spo2`, `spo2_min` or `spo2_max` (all records carrying
their unconditionally-read keys), *and whose own base average is falsy*,
gets every side-record filtered as insufficient — and `loadRow` then returns
`[base]`, so the row contributes its base record (not nothing) to `load`. -/
theorem loadRow_insufficient_side_records_amended (fs : SideFS)
    (dirname title : String) (row : SourceRow) (base : OxygenSaturation)
    (jsonName : String) (bins : List SideRecord)
    (hbase : parseRow row = .ok base) (hbavg : truthyOpt base.avg = false)
    (hbin : row.binning = some jsonName) (hne : jsonName ≠ "")
    (hfs : fs [dirname, "jsons", title, String.mk (jsonName.data.take 1),
      jsonName] = some bins)
    (hrec : ∀ r ∈ bins, r.start_time.isSome = true ∧ r.end_time.isSome = true ∧
      r.spo2.isSome = true ∧ r.spo2_min.isSome = true ∧
      truthyOpt r.spo2 = false ∧ truthyOpt r.spo2_min = false ∧
      truthyOpt r.spo2_max = false) :
    loadJson fs base [dirname, "jsons", title,
      String.mk (jsonName.data.take 1), jsonName] = .ok [] ∧
    loadRow fs dirname title row = .ok [base] := by
  have haux := loadJsonAux_all_insufficient base bins hbavg
    (fun r hr => ⟨(hrec r hr).1, (hrec r hr).2.1, (hrec r hr).2.2.1,
      (hrec r hr).2.2.2.1, (hrec r hr).2.2.2.2.1, (hrec r hr).2.2.2.2.2.1⟩)
  have hjson : loadJson fs base [dirname, "jsons", title,
      String.mk (jsonName.data.take 1), jsonName] = .ok [] := by
    simp [loadJson, hfs, haux]
  exact ⟨hjson, by simp [loadRow, hbase, hbin, hne, hjson]⟩

/-- A file system holding, for `rowB1`, one side-file whose single record has
all three spo2 fields zero. -/
def fsC2 : SideFS := fun p =>
  if p = ["d", "jsons", "t", "b", "b1"] then
    some [⟨some 1000, some 2000, some 0, some 0, some 0⟩]
  else none

/-- C2 fails as stated: this row references an existing side-file in which no
record has a truthy `spo2`, `spo2_min` or `spo2_max`, yet `loadRow` yields
`[base]` — one measurement, not zero — and the row contributes that base
record to the output of `load`. -/
theorem loadRow_insufficient_side_records_counterexample :
    fsC2 ["d", "jsons", "t", String.mk ("b1".data.take 1), "b1"]
      = some [⟨some 1000, some 2000, some 0, some 0, some 0⟩] ∧
    truthyOpt (some (0 : ℚ)) = false ∧
    loadRow fsC2 "d" "t" rowB1 = .ok [baseB1] ∧
    loadRow fsC2 "d" "t" rowB1 ≠ .ok [] ∧
    load fsC2 "d" ⟨["t", "u", "v"], [rowB1]⟩ ≠ .ok [] := by
  refine ⟨by decide, by decide, by decide, by decide, ?_⟩
  have h : loadRows fsC2 "d" "t" [rowB1] = .ok [baseB1] := by decide
  simp [load, h, sortByStart, baseB1]

/-- Closed instance for `loadRow_insufficient_side_records_amended`. -/
theorem loadRow_insufficient_side_records_amended_witness :
    parseRow rowB1 = .ok baseB1 ∧ truthyOpt baseB1.avg = false ∧
    (∀ r ∈ [(⟨some 1000, some 2000, some 0, some 0, some 0⟩ : SideRecord)],
      r.start_time.isSome = true ∧ r.end_time.isSome = true ∧
      r.spo2.isSome = true ∧ r.spo2_min.isSome = true ∧
      truthyOpt r.spo2 = false ∧ truthyOpt r.spo2_min = false ∧
      truthyOpt r.spo2_max = false) ∧
    loadJson fsC2 baseB1
      ["d", "jsons", "t", String.mk ("b1".data.take 1), "b1"] = .ok [] ∧
    loadRow fsC2 "d" "t" rowB1 = .ok [baseB1] :=
  ⟨by decide, by decide, by decide,
    loadRow_insufficient_side_records_amended fsC2 "d" "t" rowB1 baseB1 "b1"
      [⟨some 1000, some 2000, some 0, some 0, some 0⟩]
      (by decide) (by decide) rfl (by decide) (by decide) (by decide)⟩
theorem bind_ok_iff {ε α β : Type} {x : Except ε α} {f : α → Except ε β}
    {b : β} : (x >>= f) = .ok b ↔ ∃ a, x = .ok a ∧ f a = .ok b := by
  cases x <;> simp [ok_bind, error_bind]

theorem req_ok_iff {α : Type} {o : Option α} {a : α} :
    req o = .ok a ↔ o = some a := by
  cases o <;> simp [req]

/-- C4 (amended): `parseRow` feeds all five numeric columns through `flot`;
`flot` maps the empty (falsy) string to an absent value and parses every
other string exactly as a float — including `"0"`, which yields the present
value `0.0`, not an absent one. -/
theorem parseRow_flot_numeric_fields :
    (∀ (row : SourceRow) (m : OxygenSaturation), parseRow row = .ok m →
      ((∀ s, row.min = some s → flot s = .ok m.min) ∧
       (∀ s, row.max = some s → flot s = .ok m.max) ∧
       (∀ s, row.spo2 = some s → flot s = .ok m.avg) ∧
       (∀ s, row.heart_rate = some s → flot s = .ok m.heart) ∧
       (∀ s, row.low_duration = some s → flot s = .ok m.low_duration))) ∧
    flot "" = .ok none ∧
    (∀ (s : String) (q : ℚ), s ≠ "" → parseFloat? s = some q →
      flot s = .ok (some q)) := by
  refine ⟨?_, rfl, ?_⟩
  · intro row m hm
    simp only [parseRow, bind_ok_iff, req_ok_iff, pure_eq_ok,
      Except.ok.injEq] at hm
    obtain ⟨stS, h1, st, h1b, enS, h2, en, h2b, mnS, h3, mn, h3b, mxS, h4,
      mx, h4b, spS, h5, sp, h5b, hrS, h6, hr, h6b, ldS, h7, ld, h7b, hmeq⟩ := hm
    subst hmeq
    refine ⟨?_, ?_, ?_, ?_, ?_⟩ <;> intro s hs
    · rw [h3] at hs; injection hs with he; subst he; exact h3b
    · rw [h4] at hs; injection hs with he; subst he; exact h4b
    · rw [h5] at hs; injection hs with he; subst he; exact h5b
    · rw [h6] at hs; injection hs with he; subst he; exact h6b
    · rw [h7] at hs; injection hs with he; subst he; exact h7b
  · intro s q hs hq
    simp [flot, hs, hq]

/-- C4 fails as stated: the CSV string `"0"` parses to zero, yet `parseRow`
stores the present value `0.0` in `min`, not an absent one (only the empty
string is falsy for Python `str`). -/
theorem parseRow_zero_string_counterexample :
    parseRow ⟨some "1970-01-02 03:00:00.000000",
        some "1970-01-02 03:00:00.000000", some "0", some "", some "",
        some "", some "", some ""⟩
      = .ok ⟨97200, 97200, some 0, none, none, none, none⟩ ∧
    (some (0 : ℚ) : Option ℚ) ≠ none := by
  exact ⟨by decide, by decide⟩

/-- Closed instance for `parseRow_flot_numeric_fields`. -/
theorem parseRow_flot_numeric_fields_witness :
    parseRow ⟨some "1970-01-02 03:00:00.000000",
        some "1970-01-02 03:00:00.000000", some "0", some "", some "",
        some "", some "", some ""⟩
      = .ok ⟨97200, 97200, some 0, none, none, none, none⟩ ∧
    flot "0" = .ok (⟨97200, 97200, some 0, none, none, none, none⟩ :
      OxygenSaturation).min ∧
    flot "0" = .ok (some 0) :=
  ⟨by decide,
    (parseRow_flot_numeric_fields.1
      ⟨some "1970-01-02 03:00:00.000000", some "1970-01-02 03:00:00.000000",
        some "0", some "", some "", some "", some "", some ""⟩
      ⟨97200, 97200, some 0, none, none, none, none⟩ (by decide)).1 "0" rfl,
    parseRow_flot_numeric_fields.2.2 "0" 0 (by decide) (by decide)⟩
/-- The computation raises (some) exception. -/
def errors {α : Type} (x : Except String α) : Prop :=
  ∃ e, x = .error e

theorem errors_bind_left {α β : Type} {x : Except String α}
    (f : α → Except String β) (h : errors x) : errors (x >>= f) := by
  obtain ⟨e, he⟩ := h
  rw [he]
  exact ⟨e, rfl⟩

theorem errors_bind {α β : Type} (x : Except String α)
    (f : α → Except String β) (h : ∀ a, errors (f a)) : errors (x >>= f) := by
  cases x with
  | error e => exact ⟨e, rfl⟩
  | ok a => exact h a

/-- A required column is absent from the row (`rowdict[key]` would raise
`KeyError`): one of the seven columns `parseRow` reads, or the binning
column read by `loadRow`. -/
def missingRequired (row : SourceRow) : Prop :=
  (row.start_time = none ∨ row.end_time = none ∨ row.min = none ∨
    row.max = none ∨ row.spo2 = none ∨ row.heart_rate = none ∨
    row.low_duration = none) ∨ row.binning = none

theorem parseRow_missing_field (row : SourceRow)
    (h : row.start_time = none ∨ row.end_time = none ∨ row.min = none ∨
      row.max = none ∨ row.spo2 = none ∨ row.heart_rate = none ∨
      row.low_duration = none) :
    errors (parseRow row) := by
  unfold parseRow
  rcases h with h | h | h | h | h | h | h <;> rw [h] <;>
    repeat first
      | exact ⟨_, rfl⟩
      | (apply errors_bind; intro _)

theorem loadRow_missing_field (fs : SideFS) (dirname title : String)
    (row : SourceRow) (h : missingRequired row) :
    errors (loadRow fs dirname title row) := by
  rcases h with h | h
  · exact errors_bind_left _ (parseRow_missing_field row h)
  · unfold loadRow
    apply errors_bind
    intro base
    rw [h]
    exact ⟨_, rfl⟩

theorem loadRows_error_of_mem (fs : SideFS) (dirname title : String)
    (r : SourceRow) (rows : List SourceRow) (hr : r ∈ rows)
    (h : errors (loadRow fs dirname title r)) :
    errors (loadRows fs dirname title rows) := by
  induction rows with
  | nil => cases hr
  | cons a as ih =>
    rcases List.mem_cons.mp hr with rfl | hmem
    · exact errors_bind_left _ h
    · cases ha : loadRow fs dirname title a with
      | error e => exact ⟨e, by unfold loadRows; rw [ha]; rfl⟩
      | ok v =>
        unfold loadRows
        rw [ha]
        simp only [ok_bind]
        exact errors_bind_left _ (ih hmem)

/-- C8: `load` raises when the first line has fewer than 3 comma-separated
fields, and when any row misses a required column (the underlying error is
propagated); a first line of 3 or more fields is accepted, the fields past
the first three are discarded, and the result is just the row expansion
sorted by start. -/
theorem load_header_and_missing_fields :
    (∀ (fs : SideFS) (dirname : String) (input : LoadInput),
      input.firstLine.length < 3 → ∃ e, load fs dirname input = .error e) ∧
    (∀ (fs : SideFS) (dirname : String) (input : LoadInput) (row : SourceRow),
      row ∈ input.rows → missingRequired row →
      ∃ e, load fs dirname input = .error e) ∧
    (∀ (fs : SideFS) (dirname : String) (t u v : String) (rest : List String)
      (rows : List SourceRow),
      load fs dirname ⟨t :: u :: v :: rest, rows⟩
        = load fs dirname ⟨[t, u, v], rows⟩ ∧
      load fs dirname ⟨t :: u :: v :: rest, rows⟩
        = loadRows fs dirname t rows >>= fun oxygens =>
            pure (sortByStart oxygens)) := by
  refine ⟨?_, ?_, ?_⟩
  · rintro fs dirname ⟨fl, rows⟩ hlen
    match fl with
    | [] => exact ⟨_, rfl⟩
    | [a] => exact ⟨_, rfl⟩
    | [a, b] => exact ⟨_, rfl⟩
    | a :: b :: c :: rest => simp at hlen; omega
  · rintro fs dirname ⟨fl, rows⟩ row hmem hmiss
    match fl with
    | [] => exact ⟨_, rfl⟩
    | [a] => exact ⟨_, rfl⟩
    | [a, b] => exact ⟨_, rfl⟩
    | a :: b :: c :: rest =>
      exact errors_bind_left _ (loadRows_error_of_mem fs dirname a row rows
        hmem (loadRow_missing_field fs dirname a row hmiss))
  · intro fs dirname t u v rest rows
    exact ⟨rfl, rfl⟩

/-- Closed instance for `load_header_and_missing_fields`. -/
theorem load_header_and_missing_fields_witness :
    ((⟨["t", "u"], []⟩ : LoadInput).firstLine.length < 3 ∧
      ∃ e, load (fun _ => none) "d" ⟨["t", "u"], []⟩ = .error e) ∧
    ((⟨none, none, none, none, none, none, none, none⟩ : SourceRow) ∈
        [(⟨none, none, none, none, none, none, none, none⟩ : SourceRow)] ∧
      missingRequired ⟨none, none, none, none, none, none, none, none⟩ ∧
      ∃ e, load (fun _ => none) "d"
        ⟨["t", "u", "v"],
          [⟨none, none, none, none, none, none, none, none⟩]⟩ = .error e) ∧
    load (fun _ => none) "d" (⟨["t", "u", "v", "w"], []⟩ : LoadInput)
      = load (fun _ => none) "d" (⟨["t", "u", "v"], []⟩ : LoadInput) :=
  ⟨⟨by decide, load_header_and_missing_fields.1 (fun _ => none) "d"
      ⟨["t", "u"], []⟩ (by decide)⟩,
    ⟨by simp, by simp [missingRequired],
      load_header_and_missing_fields.2.1 (fun _ => none) "d"
        ⟨["t", "u", "v"], [⟨none, none, none, none, none, none, none, none⟩]⟩
        ⟨none, none, none, none, none, none, none, none⟩ (by simp)
        (by simp [missingRequired])⟩,
    (load_header_and_missing_fields.2.2 (fun _ => none) "d" "t" "u" "v" ["w"]
      []).1⟩
